import Mathlib

/-!
Verification development for the linear-approximation traffic assignment
solver (file `aequilibrae/paths/linear_approximation.py`).

The solver state and its operations are shallowly embedded over `ℚ`:
link-load arrays become `List (List ℚ)` (rows = links, columns =
sub-strata), aggregate link vectors become `List ℚ`, and the external
collaborators (the all-or-nothing loader, the volume-delay function and
its derivative, and the scipy bracketed root finder) become an explicit
environment `Env` of pure functions, matching their contracts: pure
elementwise functions for the VDF, and a deterministic outcome for the
root finder given the line-search instance (`none` models the raised
`ValueError`).

Floating point is modelled by exact rationals; theorems that depend on a
division carry the corresponding non-degeneracy hypothesis where Python
float semantics (inf/nan) and `ℚ` (division by zero yields 0) differ.
-/

namespace LinApprox

/-- The four algorithm tags accepted by the solver. -/
inductive Algo where
  | msa
  | frankWolfe
  | cfw
  | bfw
deriving DecidableEq

/-- Value of the `rgap` attribute: `np.inf` (its value at construction)
or a finite rational produced by `check_convergence`. -/
inductive RVal where
  | inf
  | val (q : ℚ)
deriving DecidableEq

/-- Events emitted through `logger.warning` / `logger.error`.  Message
formatting is presentation; we record the event and its payload. -/
inductive LogEvent where
  | stepsizeFinderNotConverged
  | msaAlert (step : ℚ)
  | rgapNotReached
deriving DecidableEq

/-- Elementwise sum of two link vectors (`numpy +`). -/
def vadd (a b : List ℚ) : List ℚ := List.zipWith (fun x y => x + y) a b

/-- Elementwise difference of two link vectors (`numpy -`). -/
def vsub (a b : List ℚ) : List ℚ := List.zipWith (fun x y => x - y) a b

/-- Elementwise product of two link vectors (`numpy *`). -/
def vmul (a b : List ℚ) : List ℚ := List.zipWith (fun x y => x * y) a b

/-- Scalar times vector. -/
def smulV (c : ℚ) (v : List ℚ) : List ℚ := v.map (fun x => c * x)

/-- `np.sum(a * b)`: dot product of two link vectors. -/
def dotV (a b : List ℚ) : ℚ := (vmul a b).sum

/-- `np.sum(l, axis=0)` for a list of equally shaped link vectors. -/
def sumVecs : List (List ℚ) → List ℚ
  | [] => []
  | v :: vs => vs.foldl vadd v

/-- `np.sum(m, axis=1)`: per-link sum over sub-strata. -/
def rowSums (m : List (List ℚ)) : List ℚ := m.map List.sum

/-- Elementwise difference of two link-load matrices. -/
def msub (a b : List (List ℚ)) : List (List ℚ) := List.zipWith vsub a b

/-- Elementwise sum of two link-load matrices. -/
def madd (a b : List (List ℚ)) : List (List ℚ) := List.zipWith vadd a b

/-- Scalar times link-load matrix. -/
def mscale (c : ℚ) (m : List (List ℚ)) : List (List ℚ) := m.map (smulV c)

/-- Modelled from the spec: the compiled kernel
`linear_combination(out, a, b, alpha)` is not under `src/`; following
spec section 4.1 step 4 (`results <- (1-alpha)*results + alpha*d` for the
call `linear_combination(results, d, results, alpha)`) it computes
`alpha * a + (1 - alpha) * b` elementwise. -/
def linearCombination (a b : List (List ℚ)) (alpha : ℚ) : List (List ℚ) :=
  madd (mscale alpha a) (mscale (1 - alpha) b)

/-- Modelled from the spec: the compiled kernel
`triple_linear_combination(out, a, b, c, betas)` is not under `src/`;
following spec section 4.2 (`d <- beta0*aon + beta1*d + beta2*dprev` for
the call with arguments `(aon, d, dprev)`) it computes
`beta0 * a + beta1 * b + beta2 * c` elementwise. -/
def tripleLinearCombination (a b c : List (List ℚ)) (betas : ℚ × ℚ × ℚ) :
    List (List ℚ) :=
  madd (madd (mscale betas.1 a) (mscale betas.2.1 b)) (mscale betas.2.2 c)

/-- A zero link-load matrix, as allocated by `AssignmentResults.prepare`. -/
def zeroMatrix (links strata : ℕ) : List (List ℚ) :=
  List.replicate links (List.replicate strata 0)

/-- Zero matrix of the same shape (`_aon_results.reset()`). -/
def zeroLike (m : List (List ℚ)) : List (List ℚ) :=
  m.map (fun r => r.map (fun _ => 0))

/-- One traffic class as seen by the solver: its unique mode key, its
PCE factor, its current solution buffer `results.link_loads` and its
auxiliary buffer `_aon_results.link_loads`. -/
structure TClass where
  mode : ℕ
  pce : ℚ
  results : List (List ℚ)
  aonResults : List (List ℚ)
deriving DecidableEq

/-- One row of the convergence report: the per-iteration entries appended
to the `iteration` / `rgap` / `alpha` / `warnings` lists (and, for bfw
only, the beta lists). -/
structure IterRecord where
  iteration : ℕ
  rgap : RVal
  alpha : ℚ
  warnings : String
  betasEntry : Option (ℚ × ℚ × ℚ)
deriving DecidableEq

/-- The mutable state of a `LinearApproximation` object.  Class modes are
unique keys (spec section 6), so the dictionaries keyed by `c.mode`
(`step_direction`, `previous_step_direction`,
`pre_previous_step_direction`) are represented positionally, parallel to
`classes`. -/
structure LAState where
  algorithm : Algo
  rgap_target : ℚ
  max_iter : ℕ
  cores : ℕ
  iter : ℕ
  rgap : RVal
  stepsize : ℚ
  conjugate_stepsize : ℚ
  /-- The attribute written by the two clamping branches of
  `calculate_conjugate_stepsize`; it does not exist at construction
  (hence `Option`) and is never read anywhere. -/
  stepdirection : Option ℚ
  conjugate_direction_max : ℚ
  steps_below_needed_to_terminate : ℕ
  steps_below : ℕ
  do_fw_step : Bool
  conjugate_failed : Bool
  do_conjugate_step : Bool
  betas : ℚ × ℚ × ℚ
  capacity : List ℚ
  free_flow_tt : List ℚ
  fw_total_flow : List ℚ
  congested_time : List ℚ
  aon_total_flow : List ℚ
  step_direction_flow : List ℚ
  graphCost : List ℚ
  classes : List TClass
  step_direction : List (List (List ℚ))
  previous_step_direction : List (List (List ℚ))
  pre_previous_step_direction : List (List (List ℚ))
  iteration_issue : List String
  convergence_report : List IterRecord
  logged : List LogEvent
deriving DecidableEq

/-- The external collaborators consumed by the solver, as pure functions:
`aonLoad cost i` is the link-load matrix the all-or-nothing loader writes
into class `i` under graph costs `cost`; `applyVdf` and
`applyVdfDerivative` are the VDF and its derivative (capacity, free-flow
time and VDF parameters baked in, both pure and elementwise per the VDF
contract); `rootFinder x s` is the outcome of
`root_scalar(derivative_of_objective, bracket=[0, 1])` on the line-search
instance determined by current flow `x` and direction flow `s`:
`some (root, converged)` when it returns, `none` when it raises
`ValueError`. -/
structure Env where
  aonLoad : List ℚ → ℕ → List (List ℚ)
  applyVdf : List ℚ → List ℚ
  applyVdfDerivative : List ℚ → List ℚ
  rootFinder : List ℚ → List ℚ → Option (ℚ × Bool)

/-- `derivative_of_objective(stepsize)`: evaluate the VDF at
`x + stepsize*(s - x)` and dot the congested values with `s - x`. -/
def derivObj (env : Env) (fwTotalFlow stepDirectionFlow : List ℚ)
    (stepsize : ℚ) : ℚ :=
  let x := vadd fwTotalFlow (smulV stepsize (vsub stepDirectionFlow fwTotalFlow))
  let congestedValue := env.applyVdf x
  dotV congestedValue (vsub stepDirectionFlow fwTotalFlow)

/-- Numerator of the conjugate ratio in `calculate_conjugate_stepsize`:
per class, `(d - results) * (aon - results)` (row-summed), accumulated
over classes, then dotted with the VDF derivative. -/
def conjugateNumerator (env : Env) (s : LAState) : ℚ :=
  let vdfDer := env.applyVdfDerivative s.fw_total_flow
  let perLink := sumVecs ((List.zip s.classes s.step_direction).map
    (fun p =>
      vmul (rowSums (msub p.2 p.1.results))
           (rowSums (msub p.1.aonResults p.1.results))))
  dotV perLink vdfDer

/-- Denominator of the conjugate ratio in `calculate_conjugate_stepsize`:
per class, `(d - results) * (aon - d)` (row-summed), accumulated over
classes, then dotted with the VDF derivative. -/
def conjugateDenominator (env : Env) (s : LAState) : ℚ :=
  let vdfDer := env.applyVdfDerivative s.fw_total_flow
  let perLink := sumVecs ((List.zip s.classes s.step_direction).map
    (fun p =>
      vmul (rowSums (msub p.2 p.1.results))
           (rowSums (msub p.1.aonResults p.2))))
  dotV perLink vdfDer

/-- `calculate_conjugate_stepsize`: form the ratio and clamp.  As in the
source, the two clamping branches assign to the attribute
`stepdirection`, and only the accept branch assigns to
`conjugate_stepsize`. -/
def calculateConjugateStepsize (env : Env) (s : LAState) : LAState :=
  let alpha := conjugateNumerator env s / conjugateDenominator env s
  if alpha < 0 then
    { s with stepdirection := some 0 }
  else if alpha > s.conjugate_direction_max then
    { s with stepdirection := some s.conjugate_direction_max }
  else
    { s with conjugate_stepsize := alpha }

/-- The scalar `np.sum(mu_numerator * vdf_der)` of
`calculate_biconjugate_direction`. -/
def muNumeratorOf (env : Env) (s : LAState) : ℚ :=
  let vdfDer := env.applyVdfDerivative s.fw_total_flow
  let perLink := sumVecs
    ((List.zip s.classes (List.zip s.step_direction s.previous_step_direction)).map
      (fun p =>
        let xv := rowSums (msub (madd (mscale s.stepsize p.2.1)
                                      (mscale (1 - s.stepsize) p.2.2))
                                p.1.results)
        let yv := rowSums (msub p.1.aonResults p.1.results)
        vmul xv yv))
  dotV perLink vdfDer

/-- The scalar `np.sum(mu_denominator * vdf_der)` of
`calculate_biconjugate_direction`. -/
def muDenominatorOf (env : Env) (s : LAState) : ℚ :=
  let vdfDer := env.applyVdfDerivative s.fw_total_flow
  let perLink := sumVecs
    ((List.zip s.classes (List.zip s.step_direction s.previous_step_direction)).map
      (fun p =>
        let xv := rowSums (msub (madd (mscale s.stepsize p.2.1)
                                      (mscale (1 - s.stepsize) p.2.2))
                                p.1.results)
        vmul xv (rowSums (msub p.2.2 p.2.1))))
  dotV perLink vdfDer

/-- The scalar `np.sum(nu_nom * vdf_der)` of
`calculate_biconjugate_direction`. -/
def nuNumeratorOf (env : Env) (s : LAState) : ℚ :=
  let vdfDer := env.applyVdfDerivative s.fw_total_flow
  let perLink := sumVecs
    ((List.zip s.classes s.step_direction).map
      (fun p =>
        let zv := rowSums (msub p.2 p.1.results)
        let yv := rowSums (msub p.1.aonResults p.1.results)
        vmul zv yv))
  dotV perLink vdfDer

/-- The scalar `np.sum(nu_denom * vdf_der)` of
`calculate_biconjugate_direction`. -/
def nuDenominatorOf (env : Env) (s : LAState) : ℚ :=
  let vdfDer := env.applyVdfDerivative s.fw_total_flow
  let perLink := sumVecs
    ((List.zip s.classes s.step_direction).map
      (fun p =>
        let zv := rowSums (msub p.2 p.1.results)
        vmul zv zv))
  dotV perLink vdfDer

/-- The scalar `mu`: 0 when its denominator is exactly zero, otherwise
`max 0 (-(mu_numerator / mu_denominator))`. -/
def muOf (env : Env) (s : LAState) : ℚ :=
  if muDenominatorOf env s = 0 then 0
  else max 0 (-(muNumeratorOf env s / muDenominatorOf env s))

/-- The scalar `nu`: 0 when its denominator is exactly zero, otherwise
`max 0 (-(nu_nom / nu_denom) + mu * stepsize / (1 - stepsize))`. -/
def nuOf (env : Env) (s : LAState) : ℚ :=
  if nuDenominatorOf env s = 0 then 0
  else max 0 (-(nuNumeratorOf env s / nuDenominatorOf env s)
              + muOf env s * s.stepsize / (1 - s.stepsize))

/-- The triple `(beta0, beta1, beta2) = (1/(1+nu+mu), nu*beta0,
mu*beta0)` computed by `calculate_biconjugate_direction`. -/
def bfwBetas (env : Env) (s : LAState) : ℚ × ℚ × ℚ :=
  let mu := muOf env s
  let nu := nuOf env s
  let b0 := 1 / (1 + nu + mu)
  (b0, nu * b0, mu * b0)

/-- `calculate_biconjugate_direction`: compute `mu`, `nu` and store
`betas = (1/(1+nu+mu), nu*beta0, mu*beta0)`. -/
def calculateBiconjugateDirection (env : Env) (s : LAState) : LAState :=
  { s with betas := bfwBetas env s }

/-- `__calculate_step_direction`: the direction state machine.  First
match wins: FW step when `iter = 2`, the previous stepsize was 1,
`do_fw_step` is set, or the algorithm is frank-wolfe or msa; else a CFW
step when `iter = 3`, `do_conjugate_step` is set, or the algorithm is
cfw; else the BFW step. -/
def calculateStepDirection (env : Env) (s : LAState) : LAState :=
  if s.iter = 2 ∨ s.stepsize = 1 ∨ s.do_fw_step = true
      ∨ s.algorithm = Algo.frankWolfe ∨ s.algorithm = Algo.msa then
    let s1 := { s with do_fw_step := false, do_conjugate_step := true,
                       conjugate_stepsize := 0 }
    let newDirs := s1.classes.map (fun c => c.aonResults)
    let sdFlows := s1.classes.map (fun c => smulV c.pce (rowSums c.aonResults))
    { s1 with step_direction := newDirs, step_direction_flow := sumVecs sdFlows }
  else if s.iter = 3 ∨ s.do_conjugate_step = true ∨ s.algorithm = Algo.cfw then
    let s1 := { s with do_conjugate_step := false }
    let s2 := calculateConjugateStepsize env s1
    let prePrev := s2.step_direction
    let newDirs := List.zipWith
      (fun sd c => linearCombination sd c.aonResults s2.conjugate_stepsize)
      s2.step_direction s2.classes
    let sdFlows := List.zipWith (fun d c => smulV c.pce (rowSums d))
      newDirs s2.classes
    { s2 with pre_previous_step_direction := prePrev,
              step_direction := newDirs,
              step_direction_flow := sumVecs sdFlows }
  else
    let s2 := calculateBiconjugateDirection env s
    let prePrev := s2.step_direction
    let newDirs := List.zipWith
      (fun c p => tripleLinearCombination c.aonResults p.1 p.2 s2.betas)
      s2.classes (List.zip s2.step_direction s2.previous_step_direction)
    let sdFlows := List.zipWith (fun d c => smulV c.pce (rowSums d))
      newDirs s2.classes
    { s2 with pre_previous_step_direction := prePrev,
              step_direction := newDirs,
              previous_step_direction := prePrev,
              step_direction_flow := sumVecs sdFlows }

/-- The string appended to the iteration issues on a bad conjugate
direction. -/
def badConjugateMsg : String :=
  "Found bad conjugate direction step. Performing FW search"

/-- One pass of `calculate_stepsize` without the recursive fallback: the
returned flag records whether the bad-conjugate branch requested the
direction recomputation and line-search re-run. -/
def calculateStepsizeOnce (env : Env) (s : LAState) : LAState × Bool :=
  if s.algorithm = Algo.msa then
    ({ s with stepsize := 1 / (s.iter : ℚ) }, false)
  else
    match env.rootFinder s.fw_total_flow s.step_direction_flow with
    | some rc =>
        let s1 := { s with stepsize := rc.1 }
        let s2 := if rc.2 = true then s1
          else { s1 with logged := s1.logged ++ [LogEvent.stepsizeFinderNotConverged] }
        ({ s2 with conjugate_failed := false }, false)
    | none =>
        let sB := if s.algorithm = Algo.bfw then
            { s with betas := (-1, -1, -1) } else s
        if derivObj env s.fw_total_flow s.step_direction_flow 0
            < derivObj env s.fw_total_flow s.step_direction_flow 1 then
          if s.algorithm = Algo.frankWolfe ∨ s.conjugate_failed = true then
            ({ sB with stepsize := 1 / (s.iter : ℚ),
                       logged := sB.logged ++ [LogEvent.msaAlert (1 / (s.iter : ℚ))] },
             false)
          else
            ({ sB with stepsize := 0, do_fw_step := true, conjugate_failed := true,
                       iteration_issue := sB.iteration_issue ++ [badConjugateMsg] },
             true)
        else
          ({ sB with stepsize := 1 }, false)

/-- `calculate_stepsize` with its recursive fallback.  The recursion has
depth at most two: the retry branch sets `conjugate_failed`, direction
recomputation preserves it, and with `conjugate_failed` set the retry
branch is unreachable (`calculateStepsizeOnce_no_retry` below), so one
unfolding is exact. -/
def calculateStepsize (env : Env) (s : LAState) : LAState :=
  let r := calculateStepsizeOnce env s
  if r.2 = true then
    (calculateStepsizeOnce env (calculateStepDirection env r.1)).1
  else r.1

/-- `check_convergence`: set `rgap` to the relative gap and report
whether `rgap_target >= rgap`. -/
def checkConvergence (s : LAState) : LAState × Bool :=
  let aonCost := dotV s.congested_time s.aon_total_flow
  let currentCost := dotV s.congested_time s.fw_total_flow
  let rho := |currentCost - aonCost| / currentCost
  ({ s with rgap := RVal.val rho }, decide (rho ≤ s.rgap_target))

/-- Separator joining the iteration issues into the report warnings
column. -/
def semicolonSep : String := "; "

/-- Append one row to the convergence report, reading the current
`rgap`, `stepsize` and warnings, plus the betas when the algorithm is
bfw. -/
def appendReport (k : ℕ) (s : LAState) : LAState :=
  { s with convergence_report := s.convergence_report ++
      [⟨k, s.rgap, s.stepsize, String.intercalate semicolonSep s.iteration_issue,
        if s.algorithm = Algo.bfw then some s.betas else none⟩] }

/-- The tail of a non-breaking loop pass: apply the VDF to the current
total flow, publish the congested times onto every graph cost, and reset
each `_aon_results` buffer. -/
def endOfIteration (env : Env) (s : LAState) : LAState :=
  let ct := env.applyVdf s.fw_total_flow
  { s with congested_time := ct, graphCost := ct,
           classes := s.classes.map (fun c => { c with aonResults := zeroLike c.aonResults }) }

/-- The head of a loop pass for iteration `k`: reset the issue list, run
the all-or-nothing loader for every class and aggregate `y`; at `k = 1`
copy the AoN loads into the solutions, otherwise compute the direction
and the stepsize and update every solution by
`results <- alpha*d + (1-alpha)*results`; finally refresh the aggregate
current flow `x`. -/
def aonStage (env : Env) (k : ℕ) (s : LAState) : LAState :=
  let s0 := { s with iter := k, iteration_issue := ([] : List String) }
  let classesA := s0.classes.mapIdx
    (fun i c => { c with aonResults := env.aonLoad s0.graphCost i })
  { s0 with classes := classesA,
            aon_total_flow :=
              sumVecs (classesA.map (fun c => smulV c.pce (rowSums c.aonResults))) }

/-- Continuation of the loop pass after AoN loading: at `k = 1` copy the
AoN loads into the solutions, otherwise compute the direction and the
stepsize and update every solution by
`results <- alpha*d + (1-alpha)*results`; finally refresh the aggregate
current flow `x`. -/
def iterBodyPre (env : Env) (k : ℕ) (s : LAState) : LAState :=
  let s1 := aonStage env k s
  if k = 1 then
    let classesB := s1.classes.map (fun c => { c with results := c.aonResults })
    let fwTotal := sumVecs (classesB.map (fun c => smulV c.pce (rowSums c.results)))
    { s1 with classes := classesB, fw_total_flow := fwTotal }
  else
    let s3 := calculateStepsize env (calculateStepDirection env s1)
    let classesB := List.zipWith
      (fun c sd => { c with results := linearCombination sd c.results s3.stepsize })
      s3.classes s3.step_direction
    let fwTotal := sumVecs (classesB.map (fun c => smulV c.pce (rowSums c.results)))
    { s3 with classes := classesB, fw_total_flow := fwTotal }

/-- One full pass of the `execute` loop at iteration `k`.  The returned
flag is `true` when the pass ends in `break`: the convergence check (run
only for `k > 1`) succeeded and the steps-below counter had already
reached the threshold.  On a converged pass that does not break, the
counter is incremented and the pass falls through to the VDF update. -/
def iterBody (env : Env) (k : ℕ) (s : LAState) : LAState × Bool :=
  let s1 := iterBodyPre env k s
  let cc := if 1 < k then checkConvergence s1 else (s1, false)
  let s3 := appendReport k cc.1
  if cc.2 = true then
    if s3.steps_below_needed_to_terminate ≤ s3.steps_below then
      (s3, true)
    else
      (endOfIteration env { s3 with steps_below := s3.steps_below + 1 }, false)
  else
    (endOfIteration env s3, false)

/-- The `for self.iter in range(1, max_iter + 1)` loop: run passes at
`k, k+1, ...` while fuel remains, stopping early on `break`. -/
def executeLoop (env : Env) : ℕ → ℕ → LAState → LAState
  | 0, _, s => s
  | fuel + 1, k, s =>
      let b := iterBody env k s
      if b.2 = true then b.1 else executeLoop env fuel (k + 1) b.1

/-- Whether the final `rgap` still exceeds the target
(`self.rgap > self.rgap_target`, with `np.inf` exceeding everything). -/
def rgapAboveTargetB (s : LAState) : Bool :=
  match s.rgap with
  | RVal.inf => true
  | RVal.val q => decide (s.rgap_target < q)

/-- The error log emitted after the loop when the final `rgap` still
exceeds the target. -/
def finalLog (s : LAState) : LAState :=
  if rgapAboveTargetB s = true then
    { s with logged := s.logged ++ [LogEvent.rgapNotReached] }
  else s

/-- `execute()`: install the time field (free-flow times) as every graph
cost, run the main loop from iteration 1, and log an error when the
target gap was not reached. -/
def execute (env : Env) (s : LAState) : LAState :=
  finalLog (executeLoop env s.max_iter 1 { s with graphCost := s.free_flow_tt })

/-- One traffic class as supplied at construction: mode key, PCE factor
and the shape of its link-load buffers (allocated zeroed by
`AssignmentResults.prepare`). -/
structure TClassInit where
  mode : ℕ
  pce : ℚ
  links : ℕ
  strata : ℕ
deriving DecidableEq

/-- The construction inputs (`assig_spec`): the five validated fields are
optional, the remaining configuration and arrays are plain values. -/
structure AssigSpecInput where
  classes : Option (List TClassInit)
  vdf : Option Unit
  capacity_field : Option String
  time_field : Option String
  vdf_parameters : Option (List ℚ)
  rgap_target : ℚ
  max_iter : ℕ
  cores : ℕ
  capacity : List ℚ
  free_flow_tt : List ℚ
  total_flow : List ℚ
  congested_time : List ℚ
deriving DecidableEq

/-- The state built by a successful `__init__` from class list `cs`:
scalar fields at their initial values, zeroed per-class buffers, one
`step_direction` buffer per class, and for cfw/bfw additionally one
`previous_step_direction` and one `pre_previous_step_direction` buffer
per class. -/
def initialState (spec : AssigSpecInput) (alg : Algo) (cs : List TClassInit) :
    LAState :=
  { algorithm := alg
    rgap_target := spec.rgap_target
    max_iter := spec.max_iter
    cores := spec.cores
    iter := 0
    rgap := RVal.inf
    stepsize := 1
    conjugate_stepsize := 0
    stepdirection := none
    conjugate_direction_max := 99999 / 100000
    steps_below_needed_to_terminate := 1
    steps_below := 0
    do_fw_step := false
    conjugate_failed := false
    do_conjugate_step := false
    betas := (1, 0, 0)
    capacity := spec.capacity
    free_flow_tt := spec.free_flow_tt
    fw_total_flow := spec.total_flow
    congested_time := spec.congested_time
    aon_total_flow := []
    step_direction_flow := []
    graphCost := []
    classes := cs.map (fun ci =>
      ⟨ci.mode, ci.pce, zeroMatrix ci.links ci.strata, zeroMatrix ci.links ci.strata⟩)
    step_direction := cs.map (fun ci => zeroMatrix ci.links ci.strata)
    previous_step_direction :=
      if alg = Algo.cfw ∨ alg = Algo.bfw then
        cs.map (fun ci => zeroMatrix ci.links ci.strata)
      else []
    pre_previous_step_direction :=
      if alg = Algo.cfw ∨ alg = Algo.bfw then
        cs.map (fun ci => zeroMatrix ci.links ci.strata)
      else []
    iteration_issue := []
    convergence_report := []
    logged := [] }

/-- The message of the exception raised by `__init__` on a missing
parameter. -/
def missingMsg : String :=
  "Parameter missing. Setting the algorithm is the last thing to do when assigning."

/-- `__init__`: raise when any of {classes, VDF, capacity field, time
field, VDF parameters} is `None`, otherwise build the initial state. -/
def initSolver (spec : AssigSpecInput) (alg : Algo) : Except String LAState :=
  if spec.classes = none ∨ spec.vdf = none ∨ spec.capacity_field = none
      ∨ spec.time_field = none ∨ spec.vdf_parameters = none then
    Except.error missingMsg
  else
    Except.ok (initialState spec alg (spec.classes.getD []))

/-- A one-link, one-class, one-stratum scenario with a constant VDF: the
all-or-nothing loader always returns 100 on the single link, congested
time is identically 1, and the root finder always raises (it is never
consulted under msa). -/
def envOneLink : Env :=
  { aonLoad := fun _ _ => [[100]]
    applyVdf := fun _ => [1]
    applyVdfDerivative := fun _ => [1]
    rootFinder := fun _ _ => none }

/-- Construction inputs for the one-link scenario: all five validated
fields present, target gap 1/100, iteration cap 5. -/
def specOneLink : AssigSpecInput :=
  { classes := some [⟨0, 1, 1, 1⟩]
    vdf := some ()
    capacity_field := some ("capacity")
    time_field := some ("free_flow_time")
    vdf_parameters := some [15 / 100, 4]
    rgap_target := 1 / 100
    max_iter := 5
    cores := 1
    capacity := [2000]
    free_flow_tt := [1]
    total_flow := [0]
    congested_time := [1] }

/-- The freshly constructed solver state of the one-link msa scenario. -/
def stateOneLink : LAState :=
  initialState specOneLink Algo.msa [⟨0, 1, 1, 1⟩]

/-- Whether the stored `rgap` is at or below the stored target (false for
the initial `np.inf`). -/
def targetReachedB (s : LAState) : Bool :=
  match s.rgap with
  | RVal.inf => false
  | RVal.val q => decide (q ≤ s.rgap_target)

/-- Reference definition following the words of the spec (section 4.3)
for the root-finder failure policy, to be compared with
`calculateStepsize`: on failure, fill the betas with the sentinel for
bfw and compare the objective derivative at 0 and 1; if descent still
improves at 0, nudge by the MSA step (with a warning) when the algorithm
is frank-wolfe or a conjugate direction already failed, and otherwise
zero the stepsize, flag `do_fw_step` and `conjugate_failed`, record the
bad-conjugate warning, recompute the direction and re-run the line
search; if not, take the full step. -/
def specFailurePolicy (env : Env) (s : LAState) : LAState :=
  let sB := if s.algorithm = Algo.bfw then { s with betas := (-1, -1, -1) } else s
  if derivObj env s.fw_total_flow s.step_direction_flow 0
      < derivObj env s.fw_total_flow s.step_direction_flow 1 then
    if s.algorithm = Algo.frankWolfe ∨ s.conjugate_failed = true then
      { sB with stepsize := 1 / (s.iter : ℚ),
                logged := sB.logged ++ [LogEvent.msaAlert (1 / (s.iter : ℚ))] }
    else
      calculateStepsize env (calculateStepDirection env
        { sB with stepsize := 0, do_fw_step := true, conjugate_failed := true,
                  iteration_issue := sB.iteration_issue ++ [badConjugateMsg] })
  else
    { sB with stepsize := 1 }

/-- An environment whose VDF derivative is identically 1 on one link
(the remaining collaborators are unused by the direction scalars). -/
def envUnitDer : Env :=
  { aonLoad := fun _ _ => [[0]]
    applyVdf := fun _ => [1]
    applyVdfDerivative := fun _ => [1]
    rootFinder := fun _ _ => none }

/-- A cfw state about to compute a conjugate stepsize whose unclamped
ratio is 2: one class, one link, one stratum, current solution 0,
current direction 1, AoN load 2. -/
def stateConjBug : LAState :=
  { stateOneLink with
      algorithm := Algo.cfw
      classes := [⟨0, 1, [[0]], [[2]]⟩]
      step_direction := [[[1]]]
      fw_total_flow := [0] }

/-- A frank-wolfe state at iteration 2 with equal current and direction
flows, used to exercise the line-search failure policy. -/
def stateLineSearch : LAState :=
  { stateOneLink with
      algorithm := Algo.frankWolfe
      iter := 2
      fw_total_flow := [100]
      step_direction_flow := [100]
      congested_time := [1]
      aon_total_flow := [100] }

/-- A bfw state mid-iteration (stepsize 1/2) with one class, one link,
one stratum, used to evaluate the bi-conjugate weights. -/
def stateBfw : LAState :=
  { stateOneLink with
      algorithm := Algo.bfw
      stepsize := 1 / 2
      classes := [⟨0, 1, [[0]], [[4]]⟩]
      step_direction := [[[1]]]
      previous_step_direction := [[[3]]]
      fw_total_flow := [0] }

/-- An msa state at iteration 2. -/
def stateMsa : LAState :=
  { stateOneLink with iter := 2 }

/-- The relative-gap formula of the claim:
`|sum(t*x) - sum(t*y)| / sum(t*x)` with `t` the stored congested times,
`x` the aggregate current flow and `y` the aggregate AoN flow. -/
def rgapFormula (s : LAState) : ℚ :=
  abs (dotV s.congested_time s.fw_total_flow
      - dotV s.congested_time s.aon_total_flow)
    / dotV s.congested_time s.fw_total_flow

/-- Frame of `calculateConjugateStepsize`: only `conjugate_stepsize` and
`stepdirection` can change. -/
theorem calculateConjugateStepsize_frame (env : Env) (s : LAState) :
    ∃ a b, calculateConjugateStepsize env s =
      { s with conjugate_stepsize := a, stepdirection := b } := by
  by_cases h1 : conjugateNumerator env s / conjugateDenominator env s < 0
  · exact ⟨s.conjugate_stepsize, some 0, by simp [calculateConjugateStepsize, h1]⟩
  by_cases h2 : conjugateNumerator env s / conjugateDenominator env s
      > s.conjugate_direction_max
  · exact ⟨s.conjugate_stepsize, some s.conjugate_direction_max,
      by simp [calculateConjugateStepsize, h1, h2]⟩
  · exact ⟨conjugateNumerator env s / conjugateDenominator env s, s.stepdirection,
      by simp [calculateConjugateStepsize, h1, h2]⟩

/-- Frame of `__calculate_step_direction`: only the direction flags, the
conjugate scalars, the betas, the three direction buffers and the
aggregate direction flow can change. -/
theorem calculateStepDirection_frame (env : Env) (s : LAState) :
    ∃ a b c d e f g h i, calculateStepDirection env s =
      { s with do_fw_step := a, do_conjugate_step := b, conjugate_stepsize := c,
               stepdirection := d, betas := e, step_direction := f,
               previous_step_direction := g, pre_previous_step_direction := h,
               step_direction_flow := i } := by
  by_cases h1 : s.iter = 2 ∨ s.stepsize = 1 ∨ s.do_fw_step = true
      ∨ s.algorithm = Algo.frankWolfe ∨ s.algorithm = Algo.msa
  · exact ⟨false, true, 0, s.stepdirection, s.betas,
      s.classes.map (fun c => c.aonResults), s.previous_step_direction,
      s.pre_previous_step_direction,
      sumVecs (s.classes.map (fun c => smulV c.pce (rowSums c.aonResults))),
      by simp [calculateStepDirection, h1]⟩
  by_cases h2 : s.iter = 3 ∨ s.do_conjugate_step = true ∨ s.algorithm = Algo.cfw
  · obtain ⟨a, b, hcs⟩ :=
      calculateConjugateStepsize_frame env { s with do_conjugate_step := false }
    exact ⟨s.do_fw_step, false, a, b, s.betas,
      List.zipWith (fun sd c => linearCombination sd c.aonResults a)
        s.step_direction s.classes,
      s.previous_step_direction, s.step_direction,
      sumVecs (List.zipWith (fun d c => smulV c.pce (rowSums d))
        (List.zipWith (fun sd c => linearCombination sd c.aonResults a)
          s.step_direction s.classes) s.classes),
      by simp only [calculateStepDirection, if_neg h1, if_pos h2, hcs]⟩
  · exact ⟨s.do_fw_step, s.do_conjugate_step, s.conjugate_stepsize,
      s.stepdirection,
      bfwBetas env s,
      List.zipWith (fun c p => tripleLinearCombination c.aonResults p.1 p.2
          (bfwBetas env s))
        s.classes (List.zip s.step_direction s.previous_step_direction),
      s.step_direction, s.step_direction,
      sumVecs (List.zipWith (fun d c => smulV c.pce (rowSums d))
        (List.zipWith (fun c p => tripleLinearCombination c.aonResults p.1 p.2
            (bfwBetas env s))
          s.classes (List.zip s.step_direction s.previous_step_direction))
        s.classes),
      by simp only [calculateStepDirection, if_neg h1, if_neg h2,
        calculateBiconjugateDirection]⟩

/-- Frame of one pass of `calculate_stepsize`: only the stepsize, the
`conjugate_failed` and `do_fw_step` flags, the betas, the issue list and
the log can change. -/
theorem calculateStepsizeOnce_frame (env : Env) (s : LAState) :
    ∃ a b c d e f, (calculateStepsizeOnce env s).1 =
      { s with stepsize := a, conjugate_failed := b, do_fw_step := c,
               betas := d, iteration_issue := e, logged := f } := by
  by_cases hm : s.algorithm = Algo.msa
  · exact ⟨1 / (s.iter : ℚ), s.conjugate_failed, s.do_fw_step, s.betas,
      s.iteration_issue, s.logged, by simp [calculateStepsizeOnce, hm]⟩
  rcases hrf : env.rootFinder s.fw_total_flow s.step_direction_flow with _ | rc
  · by_cases hphi : derivObj env s.fw_total_flow s.step_direction_flow 0
        < derivObj env s.fw_total_flow s.step_direction_flow 1
    · by_cases hfw : s.algorithm = Algo.frankWolfe ∨ s.conjugate_failed = true
      · exact ⟨1 / (s.iter : ℚ), s.conjugate_failed, s.do_fw_step,
          (if s.algorithm = Algo.bfw then (-1, -1, -1) else s.betas),
          s.iteration_issue, s.logged ++ [LogEvent.msaAlert (1 / (s.iter : ℚ))],
          by simp only [calculateStepsizeOnce, if_neg hm, hrf, if_pos hphi,
            if_pos hfw] ; split <;> rfl⟩
      · exact ⟨0, true, true,
          (if s.algorithm = Algo.bfw then (-1, -1, -1) else s.betas),
          s.iteration_issue ++ [badConjugateMsg], s.logged,
          by simp only [calculateStepsizeOnce, if_neg hm, hrf, if_pos hphi,
            if_neg hfw] ; split <;> rfl⟩
    · exact ⟨1, s.conjugate_failed, s.do_fw_step,
        (if s.algorithm = Algo.bfw then (-1, -1, -1) else s.betas),
        s.iteration_issue, s.logged,
        by simp only [calculateStepsizeOnce, if_neg hm, hrf, if_neg hphi]
           ; split <;> rfl⟩
  · by_cases hc : rc.2 = true
    · exact ⟨rc.1, false, s.do_fw_step, s.betas, s.iteration_issue, s.logged,
        by simp [calculateStepsizeOnce, hm, hrf, hc]⟩
    · exact ⟨rc.1, false, s.do_fw_step, s.betas, s.iteration_issue,
        s.logged ++ [LogEvent.stepsizeFinderNotConverged],
        by simp [calculateStepsizeOnce, hm, hrf, hc]⟩

/-- When the retry flag is returned, `conjugate_failed` has been set in
the returned state. -/
theorem calculateStepsizeOnce_retry_failed (env : Env) (s : LAState)
    (h : (calculateStepsizeOnce env s).2 = true) :
    (calculateStepsizeOnce env s).1.conjugate_failed = true := by
  by_cases hm : s.algorithm = Algo.msa
  · simp [calculateStepsizeOnce, hm] at h
  rcases hrf : env.rootFinder s.fw_total_flow s.step_direction_flow with _ | rc
  · by_cases hphi : derivObj env s.fw_total_flow s.step_direction_flow 0
        < derivObj env s.fw_total_flow s.step_direction_flow 1
    · by_cases hfw : s.algorithm = Algo.frankWolfe ∨ s.conjugate_failed = true
      · simp [calculateStepsizeOnce, hm, hrf, hphi, hfw] at h
      · simp [calculateStepsizeOnce, hm, hrf, hphi, hfw]
    · simp [calculateStepsizeOnce, hm, hrf, hphi] at h
  · simp [calculateStepsizeOnce, hm, hrf] at h

/-- With `conjugate_failed` already set, the retry branch is
unreachable: `calculate_stepsize` does not recurse further. -/
theorem calculateStepsizeOnce_no_retry (env : Env) (s : LAState)
    (h : s.conjugate_failed = true) :
    (calculateStepsizeOnce env s).2 = false := by
  by_cases hm : s.algorithm = Algo.msa
  · simp [calculateStepsizeOnce, hm]
  rcases hrf : env.rootFinder s.fw_total_flow s.step_direction_flow with _ | rc
  · by_cases hphi : derivObj env s.fw_total_flow s.step_direction_flow 0
        < derivObj env s.fw_total_flow s.step_direction_flow 1
    · have hfw : s.algorithm = Algo.frankWolfe ∨ s.conjugate_failed = true :=
        Or.inr h
      simp [calculateStepsizeOnce, hm, hrf, hphi, hfw]
    · simp [calculateStepsizeOnce, hm, hrf, hphi]
  · simp [calculateStepsizeOnce, hm, hrf]

/-- Frame of the full `calculate_stepsize` (with its recursive
fallback). -/
theorem calculateStepsize_frame (env : Env) (s : LAState) :
    ∃ a b c d e f g h i j k l m, calculateStepsize env s =
      { s with stepsize := a, conjugate_stepsize := b, stepdirection := c,
               do_fw_step := d, conjugate_failed := e, do_conjugate_step := f,
               betas := g, step_direction := h, previous_step_direction := i,
               pre_previous_step_direction := j, step_direction_flow := k,
               iteration_issue := l, logged := m } := by
  unfold calculateStepsize
  obtain ⟨a1, b1, c1, d1, e1, f1, h1⟩ := calculateStepsizeOnce_frame env s
  by_cases hr : (calculateStepsizeOnce env s).2 = true
  · simp only [hr, if_pos rfl]
    obtain ⟨a2, b2, c2, d2, e2, f2, g2, h2, i2, hdir⟩ :=
      calculateStepDirection_frame env (calculateStepsizeOnce env s).1
    obtain ⟨a3, b3, c3, d3, e3, f3, h3⟩ :=
      calculateStepsizeOnce_frame env
        (calculateStepDirection env (calculateStepsizeOnce env s).1)
    rw [h3, hdir, h1]
    exact ⟨_, _, _, _, _, _, _, _, _, _, _, _, _, rfl⟩
  · simp only [hr, if_neg, Bool.not_eq_true, reduceIte]
    rw [h1]
    exact ⟨a1, s.conjugate_stepsize, s.stepdirection, c1, b1, s.do_conjugate_step,
      d1, s.step_direction, s.previous_step_direction,
      s.pre_previous_step_direction, s.step_direction_flow, e1, f1, rfl⟩

/-- Projections untouched by `__calculate_step_direction`. -/
theorem calculateStepDirection_proj (env : Env) (s : LAState) :
    (calculateStepDirection env s).iter = s.iter
    ∧ (calculateStepDirection env s).rgap = s.rgap
    ∧ (calculateStepDirection env s).rgap_target = s.rgap_target
    ∧ (calculateStepDirection env s).steps_below = s.steps_below
    ∧ (calculateStepDirection env s).steps_below_needed_to_terminate
        = s.steps_below_needed_to_terminate
    ∧ (calculateStepDirection env s).convergence_report = s.convergence_report
    ∧ (calculateStepDirection env s).algorithm = s.algorithm
    ∧ (calculateStepDirection env s).max_iter = s.max_iter
    ∧ (calculateStepDirection env s).conjugate_failed = s.conjugate_failed
    ∧ (calculateStepDirection env s).classes = s.classes := by
  obtain ⟨a, b, c, d, e, f, g, h, i, hf⟩ := calculateStepDirection_frame env s
  rw [hf]
  exact ⟨rfl, rfl, rfl, rfl, rfl, rfl, rfl, rfl, rfl, rfl⟩

/-- Projections untouched by one pass of `calculate_stepsize`. -/
theorem calculateStepsizeOnce_proj (env : Env) (s : LAState) :
    (calculateStepsizeOnce env s).1.iter = s.iter
    ∧ (calculateStepsizeOnce env s).1.rgap = s.rgap
    ∧ (calculateStepsizeOnce env s).1.rgap_target = s.rgap_target
    ∧ (calculateStepsizeOnce env s).1.steps_below = s.steps_below
    ∧ (calculateStepsizeOnce env s).1.steps_below_needed_to_terminate
        = s.steps_below_needed_to_terminate
    ∧ (calculateStepsizeOnce env s).1.convergence_report = s.convergence_report
    ∧ (calculateStepsizeOnce env s).1.algorithm = s.algorithm
    ∧ (calculateStepsizeOnce env s).1.max_iter = s.max_iter
    ∧ (calculateStepsizeOnce env s).1.classes = s.classes := by
  obtain ⟨a, b, c, d, e, f, hf⟩ := calculateStepsizeOnce_frame env s
  rw [hf]
  exact ⟨rfl, rfl, rfl, rfl, rfl, rfl, rfl, rfl, rfl⟩

/-- Projections untouched by the full `calculate_stepsize`. -/
theorem calculateStepsize_proj (env : Env) (s : LAState) :
    (calculateStepsize env s).iter = s.iter
    ∧ (calculateStepsize env s).rgap = s.rgap
    ∧ (calculateStepsize env s).rgap_target = s.rgap_target
    ∧ (calculateStepsize env s).steps_below = s.steps_below
    ∧ (calculateStepsize env s).steps_below_needed_to_terminate
        = s.steps_below_needed_to_terminate
    ∧ (calculateStepsize env s).convergence_report = s.convergence_report
    ∧ (calculateStepsize env s).algorithm = s.algorithm
    ∧ (calculateStepsize env s).max_iter = s.max_iter
    ∧ (calculateStepsize env s).classes = s.classes := by
  obtain ⟨a, b, c, d, e, f, g, h, i, j, k, l, m, hf⟩ := calculateStepsize_frame env s
  rw [hf]
  exact ⟨rfl, rfl, rfl, rfl, rfl, rfl, rfl, rfl, rfl⟩

/-- The AoN loading stage: only the iteration counter, the issue list,
the per-class AoN buffers and the aggregate AoN flow change. -/
theorem aonStage_frame (env : Env) (k : ℕ) (s : LAState) :
    ∃ a b, aonStage env k s =
      { s with iter := k, iteration_issue := [], classes := a,
               aon_total_flow := b } := by
  exact ⟨s.classes.mapIdx (fun i c => { c with aonResults := env.aonLoad s.graphCost i }),
    sumVecs ((s.classes.mapIdx
        (fun i c => { c with aonResults := env.aonLoad s.graphCost i })).map
      (fun c => smulV c.pce (rowSums c.aonResults))),
    by simp only [aonStage]⟩

/-- Projections of the AoN loading stage. -/
theorem aonStage_proj (env : Env) (k : ℕ) (s : LAState) :
    (aonStage env k s).iter = k
    ∧ (aonStage env k s).rgap = s.rgap
    ∧ (aonStage env k s).rgap_target = s.rgap_target
    ∧ (aonStage env k s).steps_below = s.steps_below
    ∧ (aonStage env k s).steps_below_needed_to_terminate
        = s.steps_below_needed_to_terminate
    ∧ (aonStage env k s).convergence_report = s.convergence_report
    ∧ (aonStage env k s).algorithm = s.algorithm
    ∧ (aonStage env k s).max_iter = s.max_iter := by
  obtain ⟨ca, ab, ha⟩ := aonStage_frame env k s
  rw [ha]
  exact ⟨rfl, rfl, rfl, rfl, rfl, rfl, rfl, rfl⟩

/-- Projections untouched by the loop-pass head `iterBodyPre` (which
pins the iteration counter to `k`). -/
theorem iterBodyPre_proj (env : Env) (k : ℕ) (s : LAState) :
    (iterBodyPre env k s).iter = k
    ∧ (iterBodyPre env k s).rgap = s.rgap
    ∧ (iterBodyPre env k s).rgap_target = s.rgap_target
    ∧ (iterBodyPre env k s).steps_below = s.steps_below
    ∧ (iterBodyPre env k s).steps_below_needed_to_terminate
        = s.steps_below_needed_to_terminate
    ∧ (iterBodyPre env k s).convergence_report = s.convergence_report
    ∧ (iterBodyPre env k s).algorithm = s.algorithm
    ∧ (iterBodyPre env k s).max_iter = s.max_iter := by
  obtain ⟨a1, a2, a3, a4, a5, a6, a7, a8⟩ := aonStage_proj env k s
  by_cases hk : k = 1
  · simp only [iterBodyPre, if_pos hk]
    exact ⟨a1, a2, a3, a4, a5, a6, a7, a8⟩
  · obtain ⟨q1, q2, q3, q4, q5, q6, q7, q8, q9, q10⟩ :=
      calculateStepDirection_proj env (aonStage env k s)
    obtain ⟨p1, p2, p3, p4, p5, p6, p7, p8, p9⟩ :=
      calculateStepsize_proj env (calculateStepDirection env (aonStage env k s))
    simp only [iterBodyPre, if_neg hk, p1, p2, p3, p4, p5, p6, p7, p8,
      q1, q2, q3, q4, q5, q6, q7, q8, a1, a2, a3, a4, a5, a6, a7, a8]
    exact ⟨trivial, trivial, trivial, trivial, trivial, trivial, trivial, trivial⟩

theorem checkConvergence_fst_iter (s : LAState) :
    (checkConvergence s).1.iter = s.iter := rfl

theorem checkConvergence_fst_rgap_target (s : LAState) :
    (checkConvergence s).1.rgap_target = s.rgap_target := rfl

theorem checkConvergence_fst_steps_below (s : LAState) :
    (checkConvergence s).1.steps_below = s.steps_below := rfl

theorem checkConvergence_fst_needed (s : LAState) :
    (checkConvergence s).1.steps_below_needed_to_terminate
      = s.steps_below_needed_to_terminate := rfl

theorem checkConvergence_fst_report (s : LAState) :
    (checkConvergence s).1.convergence_report = s.convergence_report := rfl

theorem checkConvergence_fst_stepsize (s : LAState) :
    (checkConvergence s).1.stepsize = s.stepsize := rfl

theorem checkConvergence_fst_algorithm (s : LAState) :
    (checkConvergence s).1.algorithm = s.algorithm := rfl

/-- The boolean returned by `check_convergence` agrees with
`targetReachedB` of the state it returns. -/
theorem checkConvergence_snd (s : LAState) :
    (checkConvergence s).2 = targetReachedB (checkConvergence s).1 := rfl

theorem targetReachedB_congr {a b : LAState} (h1 : a.rgap = b.rgap)
    (h2 : a.rgap_target = b.rgap_target) :
    targetReachedB a = targetReachedB b := by
  unfold targetReachedB
  rw [h1, h2]

theorem targetReachedB_endOf (env : Env) (s : LAState) :
    targetReachedB (endOfIteration env s) = targetReachedB s :=
  targetReachedB_congr rfl rfl

theorem targetReachedB_append (k : ℕ) (s : LAState) :
    targetReachedB (appendReport k s) = targetReachedB s :=
  targetReachedB_congr rfl rfl

theorem targetReachedB_stepsUpdate (s : LAState) (n : ℕ) :
    targetReachedB { s with steps_below := n } = targetReachedB s :=
  targetReachedB_congr rfl rfl

theorem targetReachedB_check (s : LAState) :
    targetReachedB (checkConvergence s).1 = (checkConvergence s).2 := rfl

theorem appendReport_iter (k : ℕ) (s : LAState) :
    (appendReport k s).iter = s.iter := rfl

theorem appendReport_rgap (k : ℕ) (s : LAState) :
    (appendReport k s).rgap = s.rgap := rfl

theorem appendReport_rgap_target (k : ℕ) (s : LAState) :
    (appendReport k s).rgap_target = s.rgap_target := rfl

theorem appendReport_steps_below (k : ℕ) (s : LAState) :
    (appendReport k s).steps_below = s.steps_below := rfl

theorem appendReport_needed (k : ℕ) (s : LAState) :
    (appendReport k s).steps_below_needed_to_terminate
      = s.steps_below_needed_to_terminate := rfl

theorem appendReport_report (k : ℕ) (s : LAState) :
    (appendReport k s).convergence_report = s.convergence_report ++
      [⟨k, s.rgap, s.stepsize, String.intercalate semicolonSep s.iteration_issue,
        if s.algorithm = Algo.bfw then some s.betas else none⟩] := rfl

theorem endOfIteration_iter (env : Env) (s : LAState) :
    (endOfIteration env s).iter = s.iter := rfl

theorem endOfIteration_rgap (env : Env) (s : LAState) :
    (endOfIteration env s).rgap = s.rgap := rfl

theorem endOfIteration_rgap_target (env : Env) (s : LAState) :
    (endOfIteration env s).rgap_target = s.rgap_target := rfl

theorem endOfIteration_steps_below (env : Env) (s : LAState) :
    (endOfIteration env s).steps_below = s.steps_below := rfl

theorem endOfIteration_needed (env : Env) (s : LAState) :
    (endOfIteration env s).steps_below_needed_to_terminate
      = s.steps_below_needed_to_terminate := rfl

theorem endOfIteration_report (env : Env) (s : LAState) :
    (endOfIteration env s).convergence_report = s.convergence_report := rfl

/-- The loop pass pins the iteration counter to `k`. -/
theorem iterBody_iter (env : Env) (k : ℕ) (s : LAState) :
    (iterBody env k s).1.iter = k := by
  obtain ⟨b1, b2, b3, b4, b5, b6, b7, b8⟩ := iterBodyPre_proj env k s
  unfold iterBody
  by_cases hk : 1 < k
  · simp only [if_pos hk]
    split
    · split
      · rw [appendReport_iter, checkConvergence_fst_iter, b1]
      · rw [endOfIteration_iter, appendReport_iter, checkConvergence_fst_iter, b1]
    · rw [endOfIteration_iter, appendReport_iter, checkConvergence_fst_iter, b1]
  · simp only [if_neg hk]
    split
    · split
      · rw [appendReport_iter, b1]
      · rw [endOfIteration_iter, appendReport_iter, b1]
    · rw [endOfIteration_iter, appendReport_iter, b1]

/-- Every loop pass appends exactly one record to the convergence
report. -/
theorem iterBody_report (env : Env) (k : ℕ) (s : LAState) :
    ∃ rec, (iterBody env k s).1.convergence_report
      = s.convergence_report ++ [rec] := by
  obtain ⟨b1, b2, b3, b4, b5, b6, b7, b8⟩ := iterBodyPre_proj env k s
  unfold iterBody
  by_cases hk : 1 < k
  · simp only [if_pos hk]
    split
    · split
      · exact ⟨_, by rw [appendReport_report, checkConvergence_fst_report, b6]⟩
      · exact ⟨_, by rw [endOfIteration_report, appendReport_report,
          checkConvergence_fst_report, b6]⟩
    · exact ⟨_, by rw [endOfIteration_report, appendReport_report,
        checkConvergence_fst_report, b6]⟩
  · simp only [if_neg hk]
    split
    · split
      · exact ⟨_, by rw [appendReport_report, b6]⟩
      · exact ⟨_, by rw [endOfIteration_report, appendReport_report, b6]⟩
    · exact ⟨_, by rw [endOfIteration_report, appendReport_report, b6]⟩

/-- The loop pass ends in `break` exactly when the iteration index
exceeds 1, the freshly computed relative gap is at or below the target,
and the steps-below counter had already reached the threshold on
entry. -/
theorem iterBody_break_iff (env : Env) (k : ℕ) (s : LAState) :
    (iterBody env k s).2 = true ↔
      (1 < k ∧ targetReachedB (iterBody env k s).1 = true
        ∧ s.steps_below_needed_to_terminate ≤ s.steps_below) := by
  obtain ⟨b1, b2, b3, b4, b5, b6, b7, b8⟩ := iterBodyPre_proj env k s
  unfold iterBody
  by_cases hk : 1 < k
  · simp only [if_pos hk]
    split
    · rename_i h1
      split
      · rename_i h2
        rw [appendReport_needed, appendReport_steps_below,
          checkConvergence_fst_needed, checkConvergence_fst_steps_below,
          b4, b5] at h2
        simp [targetReachedB_append, targetReachedB_check, h1, hk, h2]
      · rename_i h2
        rw [appendReport_needed, appendReport_steps_below,
          checkConvergence_fst_needed, checkConvergence_fst_steps_below,
          b4, b5] at h2
        simp [targetReachedB_endOf, targetReachedB_stepsUpdate,
          targetReachedB_append, targetReachedB_check, h1, hk, h2]
    · rename_i h1
      simp [targetReachedB_endOf, targetReachedB_append, targetReachedB_check,
        h1, hk]
  · simp only [if_neg hk]
    split
    · rename_i h1
      simp at h1
    · simp [hk]

/-- The steps-below counter is incremented exactly on a sub-target
iteration that does not break, and is never reset. -/
theorem iterBody_steps_below_law (env : Env) (k : ℕ) (s : LAState) :
    (iterBody env k s).1.steps_below =
      if 1 < k ∧ targetReachedB (iterBody env k s).1 = true
          ∧ s.steps_below < s.steps_below_needed_to_terminate
      then s.steps_below + 1 else s.steps_below := by
  obtain ⟨b1, b2, b3, b4, b5, b6, b7, b8⟩ := iterBodyPre_proj env k s
  unfold iterBody
  by_cases hk : 1 < k
  · simp only [if_pos hk]
    split
    · rename_i h1
      split
      · rename_i h2
        rw [appendReport_needed, appendReport_steps_below,
          checkConvergence_fst_needed, checkConvergence_fst_steps_below,
          b4, b5] at h2
        have hlt : ¬(s.steps_below < s.steps_below_needed_to_terminate) :=
          not_lt.mpr h2
        simp [targetReachedB_append, targetReachedB_check, h1, hlt,
          appendReport_steps_below, checkConvergence_fst_steps_below, b4]
      · rename_i h2
        rw [appendReport_needed, appendReport_steps_below,
          checkConvergence_fst_needed, checkConvergence_fst_steps_below,
          b4, b5] at h2
        have hlt : s.steps_below < s.steps_below_needed_to_terminate :=
          lt_of_not_le h2
        simp [targetReachedB_endOf, targetReachedB_stepsUpdate,
          targetReachedB_append, targetReachedB_check, h1, hk, hlt,
          endOfIteration_steps_below, appendReport_steps_below,
          checkConvergence_fst_steps_below, b4]
    · rename_i h1
      have h1f : (checkConvergence (iterBodyPre env k s)).2 = false :=
        eq_false_of_ne_true h1
      simp [targetReachedB_endOf, targetReachedB_append, targetReachedB_check,
        h1f, endOfIteration_steps_below, appendReport_steps_below,
        checkConvergence_fst_steps_below, b4]
  · simp only [if_neg hk]
    split
    · rename_i h1
      simp at h1
    · simp [hk, endOfIteration_steps_below, appendReport_steps_below, b4]

/-- The pass at iteration 1 never breaks: the convergence check is
skipped there. -/
theorem iterBody_break_at_one (env : Env) (s : LAState) :
    (iterBody env 1 s).2 = false := by
  have h := iterBody_break_iff env 1 s
  simp at h
  exact h

/-- Fields read by the iteration-1 report record and untouched by the
iteration-1 pass head. -/
theorem iterBodyPre_one_proj (env : Env) (s : LAState) :
    (iterBodyPre env 1 s).stepsize = s.stepsize
    ∧ (iterBodyPre env 1 s).iteration_issue = []
    ∧ (iterBodyPre env 1 s).betas = s.betas := by
  obtain ⟨ca, ab, ha⟩ := aonStage_frame env 1 s
  simp [iterBodyPre, ha]

/-- The record appended by the pass at iteration 1 carries the entry
values of `rgap` and `stepsize` (the convergence check and the stepsize
computation are skipped at `k = 1`). -/
theorem iterBody_one_report (env : Env) (s : LAState) :
    (iterBody env 1 s).1.convergence_report = s.convergence_report ++
      [⟨1, s.rgap, s.stepsize, String.intercalate semicolonSep [],
        if s.algorithm = Algo.bfw then some s.betas else none⟩] := by
  obtain ⟨b1, b2, b3, b4, b5, b6, b7, b8⟩ := iterBodyPre_proj env 1 s
  obtain ⟨o1, o2, o3⟩ := iterBodyPre_one_proj env s
  unfold iterBody
  simp [endOfIteration_report, appendReport_report, b2, b6, b7, o1, o2, o3]

/-- The loop only ever appends to the convergence report. -/
theorem executeLoop_report_extends (env : Env) :
    ∀ fuel k s, ∃ t, (executeLoop env fuel k s).convergence_report
      = s.convergence_report ++ t := by
  intro fuel
  induction fuel with
  | zero => exact fun k s => ⟨[], by simp [executeLoop]⟩
  | succ n ih =>
    intro k s
    obtain ⟨rec, hrec⟩ := iterBody_report env k s
    by_cases hb : (iterBody env k s).2 = true
    · exact ⟨[rec], by simp [executeLoop, hb, hrec]⟩
    · obtain ⟨t, ht⟩ := ih (k + 1) (iterBody env k s).1
      exact ⟨[rec] ++ t, by simp [executeLoop, hb, ht, hrec]⟩

/-- With the report length in step with the iteration index on entry,
the loop keeps one record per executed iteration: on exit the report
length equals the final iteration index. -/
theorem executeLoop_len (env : Env) :
    ∀ fuel k s, 1 ≤ fuel → s.convergence_report.length + 1 = k →
      (executeLoop env fuel k s).convergence_report.length
        = (executeLoop env fuel k s).iter := by
  intro fuel
  induction fuel with
  | zero => intro k s hf; omega
  | succ n ih =>
    intro k s _ hlen
    obtain ⟨rec, hrec⟩ := iterBody_report env k s
    have hblen : (iterBody env k s).1.convergence_report.length = k := by
      rw [hrec]
      simp [hlen]
    have hbit : (iterBody env k s).1.iter = k := iterBody_iter env k s
    by_cases hb : (iterBody env k s).2 = true
    · simp [executeLoop, hb, hblen, hbit]
    · rcases n with _ | m
      · simp [executeLoop, hb, hblen, hbit]
      · have := ih (k + 1) (iterBody env k s).1 (by omega) (by omega)
        simpa [executeLoop, hb] using this

/-- Once started, the loop finishes at an iteration index at least the
one it started from. -/
theorem executeLoop_iter_ge (env : Env) :
    ∀ fuel k s, 1 ≤ fuel → k ≤ (executeLoop env fuel k s).iter := by
  intro fuel
  induction fuel with
  | zero => intro k s hf; omega
  | succ n ih =>
    intro k s _
    have hbit : (iterBody env k s).1.iter = k := iterBody_iter env k s
    by_cases hb : (iterBody env k s).2 = true
    · simp [executeLoop, hb, hbit]
    · rcases n with _ | m
      · simp [executeLoop, hb, hbit]
      · have := ih (k + 1) (iterBody env k s).1 (by omega)
        have h2 : k ≤ k + 1 := by omega
        simpa [executeLoop, hb] using le_trans h2 this

/-- One unfolding of the loop. -/
theorem executeLoop_succ (env : Env) (fuel k : ℕ) (s : LAState) :
    executeLoop env (fuel + 1) k s =
      (if (iterBody env k s).2 = true then (iterBody env k s).1
       else executeLoop env fuel (k + 1) (iterBody env k s).1) := rfl

/-- The post-loop logging of `execute()` does not touch the report. -/
theorem execute_report (env : Env) (s : LAState) :
    (execute env s).convergence_report =
      (executeLoop env s.max_iter 1
        { s with graphCost := s.free_flow_tt }).convergence_report := by
  unfold execute finalLog
  split
  · rfl
  · rfl

/-- The post-loop logging of `execute()` does not touch the iteration
counter. -/
theorem execute_iter (env : Env) (s : LAState) :
    (execute env s).iter =
      (executeLoop env s.max_iter 1 { s with graphCost := s.free_flow_tt }).iter := by
  unfold execute finalLog
  split
  · rfl
  · rfl

/-- With `conjugate_failed` set, `calculate_stepsize` consists of a
single pass. -/
theorem calculateStepsize_eq_once (env : Env) (s : LAState)
    (h : s.conjugate_failed = true) :
    calculateStepsize env s = (calculateStepsizeOnce env s).1 := by
  have hnr := calculateStepsizeOnce_no_retry env s h
  simp [calculateStepsize, hnr]

/-- A single pass of `calculate_stepsize` that does not request a retry
produces a stepsize in `[0, 1]`, provided the iteration index is at
least 2 and the bracketed root finder only returns roots in `[0, 1]`. -/
theorem calculateStepsizeOnce_bound (env : Env) (s : LAState)
    (hiter : 2 ≤ s.iter)
    (hroot : ∀ x sd r c, env.rootFinder x sd = some (r, c) → 0 ≤ r ∧ r ≤ 1)
    (hnr : (calculateStepsizeOnce env s).2 = false) :
    0 ≤ (calculateStepsizeOnce env s).1.stepsize
    ∧ (calculateStepsizeOnce env s).1.stepsize ≤ 1 := by
  have hq : (1 : ℚ) ≤ (s.iter : ℚ) := by
    have : 1 ≤ s.iter := by omega
    exact_mod_cast this
  have hpos : (0 : ℚ) < (s.iter : ℚ) := lt_of_lt_of_le one_pos hq
  have hinv0 : 0 ≤ 1 / (s.iter : ℚ) := by positivity
  have hinv1 : 1 / (s.iter : ℚ) ≤ 1 := by
    rw [div_le_one hpos]
    exact hq
  by_cases hm : s.algorithm = Algo.msa
  · simp only [calculateStepsizeOnce, if_pos hm]
    exact ⟨hinv0, hinv1⟩
  rcases hrf : env.rootFinder s.fw_total_flow s.step_direction_flow with _ | rc
  · by_cases hphi : derivObj env s.fw_total_flow s.step_direction_flow 0
        < derivObj env s.fw_total_flow s.step_direction_flow 1
    · by_cases hfw : s.algorithm = Algo.frankWolfe ∨ s.conjugate_failed = true
      · simp only [calculateStepsizeOnce, if_neg hm, hrf, if_pos hphi, if_pos hfw]
        exact ⟨hinv0, hinv1⟩
      · simp [calculateStepsizeOnce, hm, hrf, hphi, hfw] at hnr
    · simp only [calculateStepsizeOnce, if_neg hm, hrf, if_neg hphi]
      norm_num
  · have hb := hroot s.fw_total_flow s.step_direction_flow rc.1 rc.2 (by rw [hrf])
    by_cases hc : rc.2 = true
    · simp only [calculateStepsizeOnce, if_neg hm, hrf, if_pos hc]
      exact hb
    · simp only [calculateStepsizeOnce, if_neg hm, hrf, if_neg hc]
      exact hb

/-- C1 (amended): a loop pass of `execute()` breaks exactly when `k > 1`,
the freshly computed relative gap is at or below `rgap_target`, and the
`steps_below` counter had already reached
`steps_below_needed_to_terminate` on entry; on a sub-target pass that
does not break the counter is incremented, and above-target passes leave
it unchanged (it is never reset).  Hence the loop terminates on the
`(N+1)`-th sub-target iteration counted cumulatively, not on the `N`-th
consecutive one. -/
theorem claimC1 (env : Env) (k : ℕ) (s : LAState) :
    ((iterBody env k s).2 = true ↔
      (1 < k ∧ targetReachedB (iterBody env k s).1 = true
        ∧ s.steps_below_needed_to_terminate ≤ s.steps_below))
    ∧ ((iterBody env k s).1.steps_below =
        if 1 < k ∧ targetReachedB (iterBody env k s).1 = true
            ∧ s.steps_below < s.steps_below_needed_to_terminate
        then s.steps_below + 1 else s.steps_below) :=
  ⟨iterBody_break_iff env k s, iterBody_steps_below_law env k s⟩

/-- C1 counterexample: in the one-link msa run with
`steps_below_needed_to_terminate = 1`, the record of iteration 2 already
shows `rgap = 0 ≤ 1/100 = rgap_target`, yet the loop does not terminate
at iteration 2: it runs (and breaks at) iteration 3. -/
theorem claimC1_counterexample :
    stateOneLink.steps_below_needed_to_terminate = 1
    ∧ ((execute envOneLink stateOneLink).convergence_report.get? 1).map
        (fun r => (r.iteration, r.rgap)) = some (2, RVal.val 0)
    ∧ ((0 : ℚ) ≤ stateOneLink.rgap_target)
    ∧ (execute envOneLink stateOneLink).iter = 3 := by
  with_unfolding_all decide

/-- C2: at the concrete cfw state whose unclamped conjugate ratio is
`2 > gamma_max = 0.99999`, `calculate_conjugate_stepsize` leaves
`conjugate_stepsize` at its previous value 0 (so it is NOT set to
`gamma_max` as the claim states); the clamped value is written to the
never-read attribute `stepdirection` instead. -/
theorem claimC2 :
    conjugateNumerator envUnitDer stateConjBug
        / conjugateDenominator envUnitDer stateConjBug
      > stateConjBug.conjugate_direction_max
    ∧ (calculateConjugateStepsize envUnitDer stateConjBug).conjugate_stepsize = 0
    ∧ (calculateConjugateStepsize envUnitDer stateConjBug).conjugate_stepsize
        ≠ stateConjBug.conjugate_direction_max
    ∧ (calculateConjugateStepsize envUnitDer stateConjBug).stepdirection
        = some stateConjBug.conjugate_direction_max := by
  norm_num [calculateConjugateStepsize, conjugateNumerator, conjugateDenominator,
    stateConjBug, stateOneLink, initialState, specOneLink, envUnitDer,
    vmul, vadd, vsub, smulV, dotV, sumVecs, rowSums, msub]

/-- C5: with algorithm msa, `calculate_stepsize` only sets
`stepsize := 1/iter` and returns; the right-hand side does not mention
the environment, so neither the root finder nor the VDF is consulted. -/
theorem claimC5 (env : Env) (s : LAState) (h : s.algorithm = Algo.msa) :
    calculateStepsize env s = { s with stepsize := 1 / (s.iter : ℚ) } := by
  simp [calculateStepsize, calculateStepsizeOnce, h]

/-- C5 witness: at the msa state at iteration 2 the stepsize becomes
1/2. -/
theorem claimC5_witness :
    calculateStepsize envOneLink stateMsa
      = { stateMsa with stepsize := 1 / (stateMsa.iter : ℚ) } :=
  claimC5 envOneLink stateMsa rfl

/-- C6: `check_convergence` stores
`rgap = |sum(t*x) - sum(t*y)| / sum(t*x)` (with `t` the congested times
from the previous VDF update, `x` the aggregate current flow, `y` the
aggregate AoN flow) and returns true exactly when that value is at or
below `rgap_target`. -/
theorem claimC6 (s : LAState)
    (_h : dotV s.congested_time s.fw_total_flow ≠ 0) :
    (checkConvergence s).1 = { s with rgap := RVal.val (rgapFormula s) }
    ∧ ((checkConvergence s).2 = true ↔ rgapFormula s ≤ s.rgap_target) :=
  ⟨rfl, by simp [checkConvergence, rgapFormula]⟩

/-- C6 witness: at the one-link line-search state the relative gap
evaluates to 0 and the check succeeds. -/
theorem claimC6_witness :
    (checkConvergence stateLineSearch).1
      = { stateLineSearch with rgap := RVal.val (rgapFormula stateLineSearch) }
    ∧ ((checkConvergence stateLineSearch).2 = true ↔
        rgapFormula stateLineSearch ≤ stateLineSearch.rgap_target) :=
  claimC6 stateLineSearch (by with_unfolding_all decide)

/-- C7: after `calculate_biconjugate_direction` (called only with
`stepsize` different from 1) the betas are nonnegative and sum to
exactly 1, and a vanishing mu- or nu-denominator collapses the
corresponding scalar to 0. -/
theorem claimC7 (env : Env) (s : LAState) (_hstep : s.stepsize ≠ 1) :
    ((calculateBiconjugateDirection env s).betas.1
      + (calculateBiconjugateDirection env s).betas.2.1
      + (calculateBiconjugateDirection env s).betas.2.2 = 1)
    ∧ 0 ≤ (calculateBiconjugateDirection env s).betas.1
    ∧ 0 ≤ (calculateBiconjugateDirection env s).betas.2.1
    ∧ 0 ≤ (calculateBiconjugateDirection env s).betas.2.2
    ∧ (muDenominatorOf env s = 0 → muOf env s = 0)
    ∧ (nuDenominatorOf env s = 0 → nuOf env s = 0) := by
  have hmu : 0 ≤ muOf env s := by
    unfold muOf
    split
    · exact le_refl 0
    · exact le_max_left 0 _
  have hnu : 0 ≤ nuOf env s := by
    unfold nuOf
    split
    · exact le_refl 0
    · exact le_max_left 0 _
  have hpos : (0 : ℚ) < 1 + nuOf env s + muOf env s := by linarith
  have hne : (1 + nuOf env s + muOf env s) ≠ 0 := ne_of_gt hpos
  refine ⟨?_, ?_, ?_, ?_, ?_, ?_⟩
  · simp only [calculateBiconjugateDirection, bfwBetas]
    field_simp
  · simp only [calculateBiconjugateDirection, bfwBetas]
    positivity
  · simp only [calculateBiconjugateDirection, bfwBetas]
    have : (0 : ℚ) ≤ 1 / (1 + nuOf env s + muOf env s) := by positivity
    exact mul_nonneg hnu this
  · simp only [calculateBiconjugateDirection, bfwBetas]
    have : (0 : ℚ) ≤ 1 / (1 + nuOf env s + muOf env s) := by positivity
    exact mul_nonneg hmu this
  · intro h
    simp [muOf, h]
  · intro h
    simp [nuOf, h]

/-- C3: whenever the bracketed root finder raises (and so only for
algorithms that consult it, i.e. not msa), `calculate_stepsize` follows
the failure policy exactly as the spec states it
(`specFailurePolicy`). -/
theorem claimC3 (env : Env) (s : LAState)
    (hm : s.algorithm ≠ Algo.msa)
    (hr : env.rootFinder s.fw_total_flow s.step_direction_flow = none) :
    calculateStepsize env s = specFailurePolicy env s := by
  by_cases hphi : derivObj env s.fw_total_flow s.step_direction_flow 0
      < derivObj env s.fw_total_flow s.step_direction_flow 1
  · by_cases hfw : s.algorithm = Algo.frankWolfe ∨ s.conjugate_failed = true
    · simp [calculateStepsize, calculateStepsizeOnce, specFailurePolicy,
        hm, hr, hphi, hfw]
    · have hr2 : (calculateStepsizeOnce env s).2 = true := by
        simp [calculateStepsizeOnce, hm, hr, hphi, hfw]
      have hfst : (calculateStepsizeOnce env s).1 =
          { (if s.algorithm = Algo.bfw then { s with betas := (-1, -1, -1) } else s) with
            stepsize := 0, do_fw_step := true, conjugate_failed := true,
            iteration_issue :=
              (if s.algorithm = Algo.bfw then { s with betas := (-1, -1, -1) } else s).iteration_issue
                ++ [badConjugateMsg] } := by
        simp [calculateStepsizeOnce, hm, hr, hphi, hfw]
      have hcf : (calculateStepDirection env
          (calculateStepsizeOnce env s).1).conjugate_failed = true := by
        obtain ⟨q1, q2, q3, q4, q5, q6, q7, q8, q9, q10⟩ :=
          calculateStepDirection_proj env (calculateStepsizeOnce env s).1
        rw [q9, hfst]
      have heq := calculateStepsize_eq_once env
        (calculateStepDirection env (calculateStepsizeOnce env s).1) hcf
      calc calculateStepsize env s
          = (calculateStepsizeOnce env (calculateStepDirection env
              (calculateStepsizeOnce env s).1)).1 := by
            simp [calculateStepsize, hr2]
        _ = calculateStepsize env (calculateStepDirection env
              (calculateStepsizeOnce env s).1) := heq.symm
        _ = specFailurePolicy env s := by
            rw [hfst]
            simp [specFailurePolicy, hphi, hfw]
  · simp [calculateStepsize, calculateStepsizeOnce, specFailurePolicy,
      hm, hr, hphi]

/-- C3 witness: at the concrete frank-wolfe line-search state with a
failing root finder, `calculate_stepsize` equals the spec policy. -/
theorem claimC3_witness :
    calculateStepsize envOneLink stateLineSearch
      = specFailurePolicy envOneLink stateLineSearch :=
  claimC3 envOneLink stateLineSearch (by with_unfolding_all decide) rfl

/-- C4: for iterations `k >= 2`, on every exit path of
`calculate_stepsize` (including the recursive fallback) the final
stepsize lies in `[0, 1]`, so the closing assertion never fails.  The
root-finder hypothesis reflects the bracket `[0, 1]` guarantee of
`root_scalar`. -/
theorem claimC4 (env : Env) (s : LAState) (hiter : 2 ≤ s.iter)
    (hroot : ∀ x sd r c, env.rootFinder x sd = some (r, c) → 0 ≤ r ∧ r ≤ 1) :
    0 ≤ (calculateStepsize env s).stepsize
    ∧ (calculateStepsize env s).stepsize ≤ 1 := by
  by_cases hb : (calculateStepsizeOnce env s).2 = true
  · obtain ⟨q1, q2, q3, q4, q5, q6, q7, q8, q9, q10⟩ :=
      calculateStepDirection_proj env (calculateStepsizeOnce env s).1
    obtain ⟨p1, p2, p3, p4, p5, p6, p7, p8, p9⟩ := calculateStepsizeOnce_proj env s
    have hcf1 := calculateStepsizeOnce_retry_failed env s hb
    have hcf : (calculateStepDirection env
        (calculateStepsizeOnce env s).1).conjugate_failed = true := by
      rw [q9, hcf1]
    have hnr := calculateStepsizeOnce_no_retry env _ hcf
    have hiter2 : 2 ≤ (calculateStepDirection env
        (calculateStepsizeOnce env s).1).iter := by
      rw [q1, p1]
      exact hiter
    have hres := calculateStepsizeOnce_bound env _ hiter2 hroot hnr
    have hfull : calculateStepsize env s = (calculateStepsizeOnce env
        (calculateStepDirection env (calculateStepsizeOnce env s).1)).1 := by
      simp [calculateStepsize, hb]
    rw [hfull]
    exact hres
  · have hb' : (calculateStepsizeOnce env s).2 = false := eq_false_of_ne_true hb
    have hres := calculateStepsizeOnce_bound env s hiter hroot hb'
    have hfull : calculateStepsize env s = (calculateStepsizeOnce env s).1 := by
      simp [calculateStepsize, hb]
    rw [hfull]
    exact hres

/-- C4 witness: at the concrete line-search state (iteration 2, failing
root finder) the resulting stepsize lies in `[0, 1]`. -/
theorem claimC4_witness :
    0 ≤ (calculateStepsize envOneLink stateLineSearch).stepsize
    ∧ (calculateStepsize envOneLink stateLineSearch).stepsize ≤ 1 :=
  claimC4 envOneLink stateLineSearch (by with_unfolding_all decide)
    (fun _ _ _ _ h => nomatch h)

/-- C8 (amended): a run of `execute()` can never terminate at iteration
1 (the convergence check is skipped at `k = 1`, so the pass at `k = 1`
never breaks); a second run from the already-converged one-link state
(carrying `steps_below = 1 ≥ N`) terminates at iteration 2. -/
theorem claimC8 :
    (∀ (env : Env) (s : LAState), 2 ≤ s.max_iter → 2 ≤ (execute env s).iter)
    ∧ (execute envOneLink (execute envOneLink stateOneLink)).iter = 2 := by
  constructor
  · intro env s h
    obtain ⟨n, hn⟩ : ∃ n, s.max_iter = n + 1 + 1 := ⟨s.max_iter - 2, by omega⟩
    rw [execute_iter]
    generalize { s with graphCost := s.free_flow_tt } = X
    rw [hn, executeLoop_succ]
    have hb1 : (iterBody env 1 X).2 = false := iterBody_break_at_one env X
    simp only [hb1, Bool.false_eq_true, if_false]
    exact executeLoop_iter_ge env (n + 1) (1 + 1) _ (by omega)
  · with_unfolding_all decide

/-- C8 witness for the universal part: the one-link run (iteration cap
5) finishes at an iteration index of at least 2. -/
theorem claimC8_witness :
    2 ≤ (execute envOneLink stateOneLink).iter :=
  claimC8.1 envOneLink stateOneLink (by with_unfolding_all decide)

/-- C8 counterexample: starting the second run from the converged state
(final gap 0 at or below the target, counter carried over), the loop
terminates at iteration 2, not at iteration 1 as the claim states. -/
theorem claimC8_counterexample :
    (execute envOneLink stateOneLink).rgap = RVal.val 0
    ∧ ((0 : ℚ) ≤ (execute envOneLink stateOneLink).rgap_target)
    ∧ (execute envOneLink stateOneLink).steps_below = 1
    ∧ (execute envOneLink (execute envOneLink stateOneLink)).iter = 2
    ∧ (execute envOneLink (execute envOneLink stateOneLink)).iter ≠ 1 := by
  with_unfolding_all decide

/-- C9: construction succeeds exactly when all five of {classes, VDF,
capacity field, time field, VDF parameters} are present (it raises
otherwise), and on success it holds one `step_direction` buffer per
class, plus one `previous_step_direction` and one
`pre_previous_step_direction` buffer per class exactly for cfw/bfw
(none for frank-wolfe/msa). -/
theorem claimC9 (spec : AssigSpecInput) (alg : Algo) :
    ((∃ st, initSolver spec alg = Except.ok st) ↔
      (spec.classes ≠ none ∧ spec.vdf ≠ none ∧ spec.capacity_field ≠ none
        ∧ spec.time_field ≠ none ∧ spec.vdf_parameters ≠ none))
    ∧ (∀ cs st, spec.classes = some cs → initSolver spec alg = Except.ok st →
        st.step_direction.length = cs.length
        ∧ st.previous_step_direction.length
            = (if alg = Algo.cfw ∨ alg = Algo.bfw then cs.length else 0)
        ∧ st.pre_previous_step_direction.length
            = (if alg = Algo.cfw ∨ alg = Algo.bfw then cs.length else 0)) := by
  by_cases hc : spec.classes = none ∨ spec.vdf = none ∨ spec.capacity_field = none
      ∨ spec.time_field = none ∨ spec.vdf_parameters = none
  · constructor
    · constructor
      · rintro ⟨st, hst⟩
        simp [initSolver, hc] at hst
      · rintro ⟨h1, h2, h3, h4, h5⟩
        exact absurd hc (by push_neg; exact ⟨h1, h2, h3, h4, h5⟩)
    · intro cs st _ hst
      simp [initSolver, hc] at hst
  · push_neg at hc
    obtain ⟨h1, h2, h3, h4, h5⟩ := hc
    constructor
    · constructor
      · intro _
        exact ⟨h1, h2, h3, h4, h5⟩
      · intro _
        exact ⟨initialState spec alg (spec.classes.getD []),
          by simp [initSolver, h1, h2, h3, h4, h5]⟩
    · intro cs st hcs hst
      have hok : st = initialState spec alg (spec.classes.getD []) := by
        simp [initSolver, h1, h2, h3, h4, h5] at hst
        exact hst.symm
      subst hok
      simp only [initialState, hcs, Option.getD_some]
      refine ⟨by simp, ?_, ?_⟩
      · split
        · simp
        · simp
      · split
        · simp
        · simp

/-- C9 witness: the one-link construction inputs (all five fields
present) yield a successfully constructed bfw solver. -/
theorem claimC9_witness :
    ∃ st, initSolver specOneLink Algo.bfw = Except.ok st :=
  (claimC9 specOneLink Algo.bfw).1.mpr (by with_unfolding_all decide)

/-- C10: a run of `execute()` from the freshly constructed state (empty
report, `rgap = inf`, `stepsize = 1`) appends exactly one record per
executed iteration (the final report length equals the final iteration
index), and the record of iteration 1 carries `rgap = inf` and
`alpha = 1`, the constructor values, since the convergence check and
the stepsize computation are skipped at `k = 1`. -/
theorem claimC10 (env : Env) (s : LAState)
    (h1 : s.convergence_report = []) (h2 : s.rgap = RVal.inf)
    (h3 : s.stepsize = 1) (h4 : 1 ≤ s.max_iter) :
    (execute env s).convergence_report.length = (execute env s).iter
    ∧ ((execute env s).convergence_report.head?).map
        (fun r => (r.iteration, r.rgap, r.alpha)) = some (1, RVal.inf, 1) := by
  obtain ⟨n, hn⟩ : ∃ n, s.max_iter = n + 1 := ⟨s.max_iter - 1, by omega⟩
  have hone := iterBody_one_report env { s with graphCost := s.free_flow_tt }
  have hone2 : (iterBody env 1 { s with graphCost := s.free_flow_tt }).1.convergence_report
      = [(⟨1, RVal.inf, 1, String.intercalate semicolonSep [],
          if s.algorithm = Algo.bfw then some s.betas else none⟩ : IterRecord)] := by
    rw [hone]
    simp [h1, h2, h3]
  have hit1 : (iterBody env 1 { s with graphCost := s.free_flow_tt }).1.iter = 1 :=
    iterBody_iter env 1 _
  rw [execute_report, execute_iter]
  generalize hX : { s with graphCost := s.free_flow_tt } = X
  rw [hX] at hone2 hit1
  rw [hn, executeLoop_succ]
  by_cases hb : (iterBody env 1 X).2 = true
  · simp only [hb, if_pos]
    constructor
    · rw [hone2, hit1]
      rfl
    · rw [hone2]
      rfl
  · simp only [hb, Bool.false_eq_true, if_false]
    rcases n with _ | m
    · simp only [executeLoop]
      constructor
      · rw [hone2, hit1]
        rfl
      · rw [hone2]
        rfl
    · have hlen := executeLoop_len env (m + 1) (1 + 1)
        (iterBody env 1 X).1 (by omega)
        (by rw [hone2]; rfl)
      obtain ⟨t, ht⟩ := executeLoop_report_extends env (m + 1) (1 + 1)
        (iterBody env 1 X).1
      constructor
      · exact hlen
      · rw [ht, hone2]
        rfl

/-- C10 witness: the one-link msa run from the constructed state has one
record per iteration and an iteration-1 record carrying `rgap = inf`
and `alpha = 1`. -/
theorem claimC10_witness :
    (execute envOneLink stateOneLink).convergence_report.length
      = (execute envOneLink stateOneLink).iter
    ∧ ((execute envOneLink stateOneLink).convergence_report.head?).map
        (fun r => (r.iteration, r.rgap, r.alpha)) = some (1, RVal.inf, 1) :=
  claimC10 envOneLink stateOneLink rfl rfl rfl (by with_unfolding_all decide)

/-- C7 witness: at the concrete bfw state the betas evaluate to
`(1, 0, 0)`, nonnegative and summing to 1. -/
theorem claimC7_witness :
    ((calculateBiconjugateDirection envUnitDer stateBfw).betas.1
      + (calculateBiconjugateDirection envUnitDer stateBfw).betas.2.1
      + (calculateBiconjugateDirection envUnitDer stateBfw).betas.2.2 = 1)
    ∧ 0 ≤ (calculateBiconjugateDirection envUnitDer stateBfw).betas.1
    ∧ 0 ≤ (calculateBiconjugateDirection envUnitDer stateBfw).betas.2.1
    ∧ 0 ≤ (calculateBiconjugateDirection envUnitDer stateBfw).betas.2.2
    ∧ (muDenominatorOf envUnitDer stateBfw = 0 → muOf envUnitDer stateBfw = 0)
    ∧ (nuDenominatorOf envUnitDer stateBfw = 0 → nuOf envUnitDer stateBfw = 0) :=
  claimC7 envUnitDer stateBfw (by with_unfolding_all decide)

end LinApprox
